import Mathlib

/-!
Verification of the speedtest typing-trainer repository.

Shallow embedding of the core logic:
- the session state machine of the TypingTest class (src/js/typingTest.js),
- the partial-credit TypingTest variant (src/unnamed/part_003),
- the metrics calculators calculateWPM / calculateAccuracy / calculateImprovement
  (the stats-module documents concatenated in src/js/typingTest.js),
- the history store saveResult / getResults (src/js/storageModule.js),
- the countdown Timer class (src/js/timerModule.js).

JavaScript strings are modelled as Lean String values; the string operations the
code uses (trim, endsWith(' '), slice(0, -1), length, ===) are re-implemented
structurally over the character list so that the kernel can evaluate them.
JavaScript number arithmetic in the metrics calculators is modelled over the
rationals, with Math.round modelled as floor(q + 1/2) (round half toward
positive infinity, as Math.round behaves on finite values).
-/

/-- Whitespace test used by the model of String.prototype.trim.  The inputs in
this codebase only ever carry ASCII whitespace, so the common four characters
suffice. -/
def jsIsSpace (c : Char) : Bool := c == ' ' || c == '\t' || c == '\n' || c == '\r'

/-- Model of JavaScript String.prototype.trim: drop whitespace from both ends. -/
def jsTrim (s : String) : String :=
  String.mk (((s.data.dropWhile jsIsSpace).reverse.dropWhile jsIsSpace).reverse)

/-- Model of JavaScript String.prototype.endsWith for a single-character
argument: the last character equals the given one. -/
def jsEndsWith (s : String) (c : Char) : Bool := s.data.getLast? == some c

/-- Model of JavaScript String.prototype.slice(0, -1): drop the last character. -/
def jsSliceDropLast (s : String) : String := String.mk s.data.dropLast

/-- Model of JavaScript Math.round on a finite value: floor(q + 1/2). -/
def jsRound (q : ℚ) : ℤ := ⌊q + 1/2⌋

/-- Stats snapshot emitted by the typing test through onUpdate / onComplete
(src/js/typingTest.js, updateStats and complete). -/
structure TestStats where
  correctChars : ℕ
  totalChars : ℕ
  currentWordIndex : ℕ
  totalWords : ℕ
deriving DecidableEq

namespace Stats

/-- calculateWPM from the stats module (src/js/typingTest.js lines 573-582,
identical copy at lines 459-466): words = correctChars / 5, minutes =
timeInSeconds / 60, 0 when minutes is 0, otherwise Math.round(words / minutes).
timeInSeconds ranges over the integers as the claim does. -/
def calculateWPM (correctChars : ℕ) (timeInSeconds : ℤ) : ℤ :=
  let words : ℚ := (correctChars : ℚ) / 5
  let minutes : ℚ := (timeInSeconds : ℚ) / 60
  if minutes = 0 then 0
  else jsRound (words / minutes)

/-- Two-argument calculateAccuracy from the stats module
(src/js/typingTest.js lines 590-595): 100 when totalChars is 0, otherwise
Math.round((correctChars / totalChars) * 100). -/
def calculateAccuracy (correctChars totalChars : ℕ) : ℤ :=
  if totalChars = 0 then 100
  else jsRound ((correctChars : ℚ) / (totalChars : ℚ) * 100)

/-- A persisted test result as consumed by calculateImprovement: the wpm and
accuracy fields, both integer-valued in this codebase (outputs of Math.round). -/
structure TestResult where
  wpm : ℤ
  accuracy : ℤ
deriving DecidableEq

/-- Verdict object returned by calculateImprovement. -/
structure Improvement where
  speed : Bool
  accuracy : Bool
  isFirstTest : Bool
deriving DecidableEq

/-- calculateImprovement from the stats module (src/js/typingTest.js lines
603-616): first test when the history is empty, otherwise strict comparison
against the last element previousResults[previousResults.length - 1]. -/
def calculateImprovement (currentResult : TestResult)
    (previousResults : List TestResult) : Improvement :=
  if previousResults.length = 0 then
    { speed := false, accuracy := false, isFirstTest := true }
  else
    let lastResult := previousResults.getD (previousResults.length - 1)
      { wpm := 0, accuracy := 0 }
    { speed := decide (currentResult.wpm > lastResult.wpm),
      accuracy := decide (currentResult.accuracy > lastResult.accuracy),
      isFirstTest := false }

end Stats

namespace StatsKeystrokes

/-- Four-argument calculateAccuracy from the keystroke-aware stats module
(src/js/typingTest.js lines 475-488).  The two optional JavaScript parameters
are modelled as Option values (none = undefined); the truthiness test
"totalKeystrokes && totalKeystrokes > totalChars" is defined and nonzero and
greater. -/
def calculateAccuracy (correctChars totalChars : ℕ)
    (totalKeystrokes incorrectChars : Option ℕ) : ℤ :=
  if totalChars = 0 then 100
  else
    match incorrectChars with
    | some ic =>
        jsRound ((correctChars : ℚ) / ((correctChars : ℚ) + (ic : ℚ)) * 100)
    | none =>
        match totalKeystrokes with
        | some tk =>
            if tk ≠ 0 ∧ totalChars < tk then
              jsRound ((correctChars : ℚ) / (tk : ℚ) * 100)
            else jsRound ((correctChars : ℚ) / (totalChars : ℚ) * 100)
        | none => jsRound ((correctChars : ℚ) / (totalChars : ℚ) * 100)

end StatsKeystrokes

/-- JSON values, the shapes JSON.parse can produce.  Numbers are restricted to
the integers, which covers every value this codebase persists (Math.round
outputs). -/
inductive Json where
  | null
  | bool (b : Bool)
  | num (n : ℤ)
  | str (s : String)
  | arr (elems : List Json)
  | obj (fields : List (String × Json))

/-- A Result Record as the spec data model describes the persisted outcome:
integer wpm, integer accuracy, ISO-8601 timestamp string. -/
structure ResultRecord where
  wpm : ℤ
  accuracy : ℤ
  timestamp : String
deriving DecidableEq

/-- The JSON object a Result Record serializes to. -/
def ResultRecord.toJson (r : ResultRecord) : Json :=
  Json.obj [("wpm", Json.num r.wpm), ("accuracy", Json.num r.accuracy),
    ("timestamp", Json.str r.timestamp)]

/-- Decoding a JSON value back into a Result Record; returns none on any other
shape. -/
def jsonToResultRecord : Json → Option ResultRecord
  | Json.obj [("wpm", Json.num w), ("accuracy", Json.num a),
      ("timestamp", Json.str t)] => some { wpm := w, accuracy := a, timestamp := t }
  | _ => none

namespace Storage

/-- The payload persisted under the localStorage key: either a string that
JSON.parse rejects (corrupt) or one that parses to a JSON value.  The
serialization layer itself is the platform's JSON, external to the repository. -/
inductive Payload where
  | corrupt
  | value (j : Json)

/-- getResults (src/js/storageModule.js lines 35-49): localStorage may hold
nothing (none); a missing entry returns [], a payload JSON.parse throws on is
caught and returns [], otherwise the parsed value is returned as-is. -/
def getResults (store : Option Payload) : Json :=
  match store with
  | none => Json.arr []
  | some Payload.corrupt => Json.arr []
  | some (Payload.value j) => j

/-- saveResult (src/js/storageModule.js lines 13-29): read the existing
results, push the new one, write back.  When the parsed existing value is not
an array, push throws a TypeError which the catch turns into a false return
with the store unchanged. -/
def saveResult (store : Option Payload) (result : Json) : Bool × Option Payload :=
  match getResults store with
  | Json.arr results => (true, some (Payload.value (Json.arr (results ++ [result]))))
  | _ => (false, store)

end Storage

namespace TimerModule

/-- State of the Timer class (src/js/timerModule.js): configured duration,
remaining seconds, the setInterval handle when one is scheduled, and the
running flag. -/
structure Timer where
  duration : ℤ
  remainingTime : ℤ
  timerId : Option ℕ
  isRunning : Bool
deriving DecidableEq

/-- Callback invocations a timer operation performs. -/
inductive TimerEvent where
  | tick (remaining : ℤ)
  | complete
deriving DecidableEq

/-- Timer.start (src/js/timerModule.js lines 27-50): an early return when
already running; otherwise set the running flag, invoke onTick immediately with
the remaining time, and schedule the interval (modelled by storing the fresh
interval id).  The later interval ticks happen outside this call. -/
def Timer.start (t : Timer) (freshIntervalId : ℕ) : Timer × List TimerEvent :=
  if t.isRunning then (t, [])
  else
    ({ t with isRunning := true, timerId := some freshIntervalId },
      [TimerEvent.tick t.remainingTime])

end TimerModule

namespace TT

/-- State of the TypingTest class (src/js/typingTest.js lines 20-54): the word
list and progress indices, the running character counters, the active flag,
the text held by the bound input field, the field's disabled flag, the last
processed input cache, and a record of the stats snapshot passed to onComplete
(none while onComplete has not fired). -/
structure TypingTest where
  words : List String
  currentWordIndex : ℕ
  currentCharIndex : ℕ
  correctChars : ℕ
  totalChars : ℕ
  isActive : Bool
  inputValue : String
  inputDisabled : Bool
  lastProcessedInput : String
  completedStats : Option TestStats
deriving DecidableEq

/-- The stats snapshot built by updateStats and complete
(src/js/typingTest.js lines 354-365 and 374-380). -/
def statsOf (s : TypingTest) : TestStats :=
  { correctChars := s.correctChars, totalChars := s.totalChars,
    currentWordIndex := s.currentWordIndex, totalWords := s.words.length }

/-- complete (src/js/typingTest.js lines 370-384): deactivate, disable the
input field, and invoke onComplete with the final stats snapshot. -/
def complete (s : TypingTest) : TypingTest :=
  let s1 := { s with isActive := false, inputDisabled := true }
  { s1 with completedStats := some (statsOf s1) }

/-- moveToNextWord (src/js/typingTest.js lines 316-349): credit the word's
length plus one (for the space) to correctChars only on an exact match of the
trimmed field value, always charge it to totalChars, step the word index,
clear the field, and complete the test once the index reaches the word count. -/
def moveToNextWord (s : TypingTest) : TypingTest :=
  let currentWord := s.words.getD s.currentWordIndex ""
  let inputValue := jsTrim s.inputValue
  let s1 :=
    if inputValue = currentWord then
      { s with correctChars := s.correctChars + (currentWord.length + 1) }
    else s
  let s2 := { s1 with totalChars := s1.totalChars + (currentWord.length + 1),
                      currentWordIndex := s1.currentWordIndex + 1,
                      currentCharIndex := 0, inputValue := "" }
  if s2.words.length ≤ s2.currentWordIndex then complete s2 else s2

/-- processInput (src/js/typingTest.js lines 241-311): advance when the input
ends in a space and its trimmed form matches the current word; otherwise strip
a trailing space, re-highlight (a pure DOM effect), and record the cursor
position and the processed input. -/
def processInput (s : TypingTest) (input : String) : TypingTest :=
  let currentWord := s.words.getD s.currentWordIndex ""
  if jsEndsWith input ' ' = true ∧ jsTrim input = currentWord then
    moveToNextWord s
  else
    let inputWithoutSpace := if jsEndsWith input ' ' then jsSliceDropLast input else input
    { s with currentCharIndex := inputWithoutSpace.length,
             lastProcessedInput := inputWithoutSpace }

/-- handleInput (src/js/typingTest.js lines 210-235), fired after the input
field's value became the given string: activate on the first input, advance
when the value ends in a space and trims to the current word, otherwise run
processInput. -/
def handleInput (s : TypingTest) (value : String) : TypingTest :=
  let s0 := if s.isActive then s else { s with isActive := true }
  let s1 := { s0 with inputValue := value }
  if jsEndsWith value ' ' = true ∧ jsTrim value = s1.words.getD s1.currentWordIndex "" then
    moveToNextWord s1
  else
    processInput s1 value

/-- The space branch of handleKeyDown (src/js/typingTest.js lines 178-189):
pressing space before the character is inserted advances only when the trimmed
field value equals the current word. -/
def handleKeyDownSpace (s : TypingTest) : TypingTest :=
  let currentWord := s.words.getD s.currentWordIndex ""
  if jsTrim s.inputValue = currentWord then moveToNextWord s else s

/-- reset (src/js/typingTest.js lines 389-406): zero the indices and counters,
deactivate, clear and re-enable the input field.  The word list and the
lastProcessedInput cache are untouched. -/
def reset (s : TypingTest) : TypingTest :=
  { s with currentWordIndex := 0, currentCharIndex := 0, correctChars := 0,
           totalChars := 0, isActive := false, inputValue := "",
           inputDisabled := false }

/-- The machine state after constructing a TypingTest and loading a word list
through setText: all counters and indices zero, inactive, fields empty
(src/js/typingTest.js lines 31-45 and 60-65). -/
def initialState (ws : List String) : TypingTest :=
  { words := ws, currentWordIndex := 0, currentCharIndex := 0, correctChars := 0,
    totalChars := 0, isActive := false, inputValue := "", inputDisabled := false,
    lastProcessedInput := "", completedStats := none }

/-- One advance with input exactly matching the current target word: the user
types the word (an input event with the field holding exactly the word) and
presses space (the keydown handler sees the match and calls moveToNextWord). -/
def advanceExact (s : TypingTest) : TypingTest :=
  handleKeyDownSpace (handleInput s (s.words.getD s.currentWordIndex ""))

/-- N successive exact-match advances. -/
def advanceN (s : TypingTest) : ℕ → TypingTest
  | 0 => s
  | n + 1 => advanceExact (advanceN s n)

/-- Total characters committed by the first k words, each charged its length
plus one for the space, exactly as moveToNextWord accumulates them. -/
def sumLen : List String → ℕ → ℕ
  | _, 0 => 0
  | [], _ + 1 => 0
  | w :: ws, k + 1 => (w.length + 1) + sumLen ws k

/-- Characterization of the state reached after k exact-match advances
(derived, used to prove the progress claim): index k, both counters at
sumLen ws k, active from the first advance on, completed once k reaches the
word count. -/
def afterAdvances (ws : List String) (k : ℕ) : TypingTest :=
  if k = 0 then initialState ws
  else
    let base : TypingTest :=
      { words := ws, currentWordIndex := k, currentCharIndex := 0,
        correctChars := sumLen ws k, totalChars := sumLen ws k, isActive := true,
        inputValue := "", inputDisabled := false,
        lastProcessedInput := ws.getD (k - 1) "", completedStats := none }
    if ws.length ≤ k then complete base else base

/-- The session operations the presentation layer can feed the machine between
a setText/reset and the next reset: an input event with the field's new value,
or a space keydown. -/
inductive Op where
  | input (value : String)
  | keydownSpace

/-- Apply one session operation. -/
def applyOp (s : TypingTest) : Op → TypingTest
  | Op.input v => handleInput s v
  | Op.keydownSpace => handleKeyDownSpace s

end TT

namespace PC

/-- State of the partial-credit TypingTest variant (src/unnamed/part_003 lines
15-45), which additionally counts raw keystrokes. -/
structure TypingTest where
  words : List String
  currentWordIndex : ℕ
  currentCharIndex : ℕ
  correctChars : ℕ
  totalChars : ℕ
  totalKeystrokes : ℕ
  isActive : Bool
  inputValue : String
  inputDisabled : Bool
  lastProcessedInput : String
  completedStats : Option TestStats
deriving DecidableEq

/-- The position-by-position comparison loop of moveToNextWord
(src/unnamed/part_003 lines 253-258): matches over the first
min(input.length, word.length) positions. -/
def countMatches : List Char → List Char → ℕ
  | a :: as, b :: bs => (if a = b then 1 else 0) + countMatches as bs
  | _, _ => 0

/-- complete (src/unnamed/part_003 lines 296-309): deactivate, disable the
field, emit the final stats snapshot. -/
def complete (s : TypingTest) : TypingTest :=
  let finalStats : TestStats :=
    { correctChars := s.correctChars, totalChars := s.totalChars,
      currentWordIndex := s.currentWordIndex, totalWords := s.words.length }
  { s with isActive := false, inputDisabled := true,
           completedStats := some finalStats }

/-- moveToNextWord of the partial-credit variant (src/unnamed/part_003 lines
249-276): credit the positionwise matches, plus one for the space only on an
exact match; always charge the word's length plus one to totalChars; step the
index, clear the field, and complete at the end of the list. -/
def moveToNextWord (s : TypingTest) : TypingTest :=
  let currentWord := s.words.getD s.currentWordIndex ""
  let inputValue := jsTrim s.inputValue
  let correctCharsInWord := countMatches inputValue.data currentWord.data
  let s1 := { s with
    correctChars := s.correctChars + correctCharsInWord +
      (if inputValue = currentWord then 1 else 0),
    totalChars := s.totalChars + (currentWord.length + 1),
    currentWordIndex := s.currentWordIndex + 1,
    currentCharIndex := 0, inputValue := "" }
  if s1.words.length ≤ s1.currentWordIndex then complete s1 else s1

end PC

/-- Concrete partial-credit session sitting on target word "hello" with
committed input "hxllo", at the moment the space keydown advances it. -/
def c2state : PC.TypingTest :=
  { words := ["hello"], currentWordIndex := 0, currentCharIndex := 5,
    correctChars := 0, totalChars := 0, totalKeystrokes := 5, isActive := true,
    inputValue := "hxllo", inputDisabled := false, lastProcessedInput := "hxllo",
    completedStats := none }

/-- A concrete Result Record for the round-trip witness. -/
def c7record : ResultRecord :=
  { wpm := 42, accuracy := 95, timestamp := "2026-10-12T09:30:00Z" }

/-- A concrete active session for the monotonicity witness. -/
def c5state : TT.TypingTest :=
  { words := ["hi"], currentWordIndex := 0, currentCharIndex := 2,
    correctChars := 0, totalChars := 0, isActive := true, inputValue := "hi",
    inputDisabled := false, lastProcessedInput := "hi", completedStats := none }

/-- Claim C2, as stated, is false on the code: advancing past target word
"hello" with committed input "hxllo" adds 4 to the correct-character counter
but adds 6 to the total-character counter (the word's 5 characters plus 1 for
the space terminator), not 5. -/
theorem moveToNextWord_hello_hxllo_counterexample :
    ¬ ((PC.moveToNextWord c2state).correctChars = c2state.correctChars + 4 ∧
       (PC.moveToNextWord c2state).totalChars = c2state.totalChars + 5) := by
  decide

/-- Claim C2 (amended): in the partial-credit implementation, where an advance
with non-matching committed input actually occurs, advancing past target word
"hello" with committed input "hxllo" increases the correct-character counter
by exactly 4 and the total-character counter by exactly 6 (5 characters plus 1
for the space). -/
theorem moveToNextWord_hello_hxllo_credit (s : PC.TypingTest)
    (hword : s.words.getD s.currentWordIndex "" = "hello")
    (hinput : s.inputValue = "hxllo") :
    (PC.moveToNextWord s).correctChars = s.correctChars + 4 ∧
    (PC.moveToNextWord s).totalChars = s.totalChars + 6 := by
  have h1 : jsTrim "hxllo" = "hxllo" := by decide
  have h2 : PC.countMatches ("hxllo" : String).data ("hello" : String).data = 4 := by
    decide
  have h3 : ("hxllo" : String) ≠ "hello" := by decide
  have h4 : ("hello" : String).length = 5 := by decide
  simp only [PC.moveToNextWord, hword, hinput, h1, h2, h4, if_neg h3]
  constructor <;> split <;> simp [PC.complete]

/-- Witness for the amended claim C2 at the concrete session. -/
theorem moveToNextWord_hello_hxllo_credit_witness :
    (PC.moveToNextWord c2state).correctChars = c2state.correctChars + 4 ∧
    (PC.moveToNextWord c2state).totalChars = c2state.totalChars + 6 :=
  moveToNextWord_hello_hxllo_credit c2state rfl rfl

/-- Claim C3: the two-argument accuracy calculator returns 100 when totalChars
is 0, and Math.round(correctChars / totalChars * 100) when totalChars is
positive. -/
theorem calculateAccuracy_spec (c t : ℕ) :
    (t = 0 → Stats.calculateAccuracy c t = 100) ∧
    (0 < t → Stats.calculateAccuracy c t = jsRound ((c : ℚ) / (t : ℚ) * 100)) := by
  constructor
  · intro h; simp [Stats.calculateAccuracy, h]
  · intro h; simp [Stats.calculateAccuracy, h.ne']

/-- Witness for claim C3 at totalChars 0 and at a positive totalChars. -/
theorem calculateAccuracy_spec_witness :
    Stats.calculateAccuracy 7 0 = 100 ∧
    Stats.calculateAccuracy 4 6 = jsRound (((4 : ℕ) : ℚ) / ((6 : ℕ) : ℚ) * 100) :=
  ⟨(calculateAccuracy_spec 7 0).1 rfl, (calculateAccuracy_spec 4 6).2 (by decide)⟩

/-- Claim C4, as stated, is false on the code: calculateWPM only guards
minutes = 0, so a negative elapsed time falls through to the rounding formula;
at correctChars 5 and elapsedSeconds -60 it returns -1, not 0, although
-60 is at most 0. -/
theorem calculateWPM_negative_counterexample :
    Stats.calculateWPM 5 (-60) = -1 ∧ ¬ Stats.calculateWPM 5 (-60) = 0 := by
  have h : Stats.calculateWPM 5 (-60) = -1 := by
    show (if (((-60 : ℤ) : ℚ) / 60 = 0) then 0
          else jsRound ((((5 : ℕ) : ℚ) / 5) / (((-60 : ℤ) : ℚ) / 60))) = -1
    rw [if_neg (by norm_num)]
    unfold jsRound
    rw [show (((5 : ℕ) : ℚ) / 5) / (((-60 : ℤ) : ℚ) / 60) = -1 by norm_num]
    rw [Int.floor_eq_iff]
    norm_num
  exact ⟨h, by rw [h]; decide⟩

/-- Claim C4 (amended): calculateWPM returns 0 exactly when elapsedSeconds is
0, and otherwise (including negative elapsedSeconds) returns
Math.round((correctChars / 5) / (elapsedSeconds / 60)); in particular the
claimed formula holds for every positive elapsedSeconds and no division by
zero occurs. -/
theorem calculateWPM_spec_amended (c : ℕ) (t : ℤ) :
    (t = 0 → Stats.calculateWPM c t = 0) ∧
    (t ≠ 0 → Stats.calculateWPM c t = jsRound (((c : ℚ) / 5) / ((t : ℚ) / 60))) := by
  constructor
  · intro h; simp [Stats.calculateWPM, h]
  · intro h
    have hm : ((t : ℚ) / 60) ≠ 0 :=
      div_ne_zero (by exact_mod_cast h) (by norm_num)
    simp [Stats.calculateWPM, hm]

/-- Witness for the amended claim C4 at elapsed 0 and at a positive elapsed
time. -/
theorem calculateWPM_spec_amended_witness :
    Stats.calculateWPM 0 0 = 0 ∧
    Stats.calculateWPM 8 30 = jsRound ((((8 : ℕ) : ℚ) / 5) / (((30 : ℤ) : ℚ) / 60)) :=
  ⟨(calculateWPM_spec_amended 0 0).1 rfl, (calculateWPM_spec_amended 8 30).2 (by decide)⟩

/-- Claim C6: the improvement comparison reports the first-attempt case, with
no improvement, on an empty prior history, and otherwise compares the new wpm
and accuracy strictly against the immediately preceding record only. -/
theorem calculateImprovement_spec (cur : Stats.TestResult)
    (prev : List Stats.TestResult) :
    (prev = [] →
      Stats.calculateImprovement cur prev =
        { speed := false, accuracy := false, isFirstTest := true }) ∧
    (∀ front lastR, prev = front ++ [lastR] →
      Stats.calculateImprovement cur prev =
        { speed := decide (cur.wpm > lastR.wpm),
          accuracy := decide (cur.accuracy > lastR.accuracy),
          isFirstTest := false }) := by
  constructor
  · intro h; subst h; rfl
  · intro front lastR h
    subst h
    have hget : (front ++ [lastR]).getD ((front ++ [lastR]).length - 1)
        { wpm := 0, accuracy := 0 } = lastR := by
      simp [List.getD, List.getElem?_append_right, Nat.add_sub_cancel, Nat.sub_self]
    simp [Stats.calculateImprovement, hget]

/-- Witness for claim C6 on an empty history and on a one-record history. -/
theorem calculateImprovement_spec_witness :
    Stats.calculateImprovement { wpm := 50, accuracy := 80 } [] =
      { speed := false, accuracy := false, isFirstTest := true } ∧
    Stats.calculateImprovement { wpm := 50, accuracy := 80 }
        [{ wpm := 40, accuracy := 90 }] =
      { speed := decide ((50 : ℤ) > 40), accuracy := decide ((80 : ℤ) > 90),
        isFirstTest := false } :=
  ⟨(calculateImprovement_spec { wpm := 50, accuracy := 80 } []).1 rfl,
   (calculateImprovement_spec { wpm := 50, accuracy := 80 }
       [{ wpm := 40, accuracy := 90 }]).2 [] { wpm := 40, accuracy := 90 } rfl⟩

/-- Claim C7: appending a Result Record through the History Store and reading
back yields a list whose last element is structurally the appended record; the
record's JSON encoding decodes back to the identical record. -/
theorem saveResult_roundTrip (store : Option Storage.Payload) (xs : List Json)
    (h : Storage.getResults store = Json.arr xs) (r : ResultRecord) :
    (Storage.saveResult store r.toJson).1 = true ∧
    Storage.getResults (Storage.saveResult store r.toJson).2 =
      Json.arr (xs ++ [r.toJson]) ∧
    (xs ++ [r.toJson]).getLast? = some r.toJson ∧
    jsonToResultRecord r.toJson = some r := by
  have hsave : Storage.saveResult store r.toJson =
      (true, some (Storage.Payload.value (Json.arr (xs ++ [r.toJson])))) := by
    unfold Storage.saveResult
    rw [h]
  refine ⟨?_, ?_, List.getLast?_concat xs, rfl⟩
  · rw [hsave]
  · rw [hsave]
    rfl

/-- Witness for claim C7 on the empty store and a concrete record. -/
theorem saveResult_roundTrip_witness :
    (Storage.saveResult none c7record.toJson).1 = true ∧
    Storage.getResults (Storage.saveResult none c7record.toJson).2 =
      Json.arr ([] ++ [c7record.toJson]) ∧
    (([] : List Json) ++ [c7record.toJson]).getLast? = some c7record.toJson ∧
    jsonToResultRecord c7record.toJson = some c7record :=
  saveResult_roundTrip none [] rfl c7record

/-- Claim C8: getResults returns the persisted list in order; a missing entry
and a corrupt (unparseable) payload both yield the empty list rather than an
error. -/
theorem getResults_spec :
    Storage.getResults none = Json.arr [] ∧
    Storage.getResults (some Storage.Payload.corrupt) = Json.arr [] ∧
    ∀ xs : List Json,
      Storage.getResults (some (Storage.Payload.value (Json.arr xs))) = Json.arr xs :=
  ⟨rfl, rfl, fun _ => rfl⟩

/-- Claim C9: starting an already-running Timer is a no-op: the state
(remaining time, running flag, scheduled interval) is unchanged and no
callback is invoked by the call. -/
theorem timer_start_noop (t : TimerModule.Timer) (freshId : ℕ)
    (h : t.isRunning = true) :
    TimerModule.Timer.start t freshId = (t, []) := by
  simp [TimerModule.Timer.start, h]

/-- Witness for claim C9 on a concrete running timer. -/
theorem timer_start_noop_witness :
    TimerModule.Timer.start
        { duration := 60, remainingTime := 42, timerId := some 7, isRunning := true }
        99 =
      ({ duration := 60, remainingTime := 42, timerId := some 7, isRunning := true },
        []) :=
  timer_start_noop
    { duration := 60, remainingTime := 42, timerId := some 7, isRunning := true }
    99 rfl

/-- Claim C10: in the four-argument accuracy calculator the totalChars = 0
check takes precedence (the result is 100 for every combination of the
optional arguments), and with positive totalChars and incorrectChars supplied
the result is Math.round(correctChars / (correctChars + incorrectChars) * 100),
with totalChars not used as the denominator. -/
theorem calculateAccuracy_four_arg_spec (c t : ℕ) (tk ic : Option ℕ) (ic2 : ℕ) :
    StatsKeystrokes.calculateAccuracy c 0 tk ic = 100 ∧
    (0 < t →
      StatsKeystrokes.calculateAccuracy c t tk (some ic2) =
        jsRound ((c : ℚ) / ((c : ℚ) + (ic2 : ℚ)) * 100)) := by
  constructor
  · simp [StatsKeystrokes.calculateAccuracy]
  · intro h; simp [StatsKeystrokes.calculateAccuracy, h.ne']

/-- Witness for claim C10 at concrete arguments, incorrectChars positive. -/
theorem calculateAccuracy_four_arg_spec_witness :
    StatsKeystrokes.calculateAccuracy 3 0 (some 10) (some 2) = 100 ∧
    StatsKeystrokes.calculateAccuracy 3 5 (some 10) (some 2) =
      jsRound (((3 : ℕ) : ℚ) / (((3 : ℕ) : ℚ) + ((2 : ℕ) : ℚ)) * 100) :=
  ⟨(calculateAccuracy_four_arg_spec 3 0 (some 10) (some 2) 2).1,
   (calculateAccuracy_four_arg_spec 3 5 (some 10) (some 2) 2).2 (by decide)⟩

/-- The word at a position below the length is a member of the list. -/
theorem getD_mem_of_lt (ws : List String) (k : ℕ) (hk : k < ws.length) :
    ws.getD k "" ∈ ws := by
  rw [List.getD_eq_getElem ws "" hk]
  exact List.getElem_mem hk

/-- One exact-match advance from a canonical mid-session state: the word is
credited and charged with its length plus one, the index steps, the machine
activates, and the test completes exactly when the stepped index reaches the
word count. -/
theorem advanceExact_canon (ws : List String) (k ck cc tc : ℕ) (b : Bool)
    (l : String)
    (hw : jsTrim (ws.getD k "") = ws.getD k "")
    (hsp : jsEndsWith (ws.getD k "") ' ' = false) :
    TT.advanceExact
      { words := ws, currentWordIndex := k, currentCharIndex := ck,
        correctChars := cc, totalChars := tc, isActive := b, inputValue := "",
        inputDisabled := false, lastProcessedInput := l, completedStats := none } =
    (if ws.length ≤ k + 1 then
      TT.complete
        { words := ws, currentWordIndex := k + 1, currentCharIndex := 0,
          correctChars := cc + ((ws.getD k "").length + 1),
          totalChars := tc + ((ws.getD k "").length + 1), isActive := true,
          inputValue := "", inputDisabled := false,
          lastProcessedInput := ws.getD k "", completedStats := none }
    else
      { words := ws, currentWordIndex := k + 1, currentCharIndex := 0,
        correctChars := cc + ((ws.getD k "").length + 1),
        totalChars := tc + ((ws.getD k "").length + 1), isActive := true,
        inputValue := "", inputDisabled := false,
        lastProcessedInput := ws.getD k "", completedStats := none }) := by
  have hw' : jsTrim (ws[k]?.getD "") = ws[k]?.getD "" := by simpa using hw
  have hsp' : jsEndsWith (ws[k]?.getD "") ' ' = false := by simpa using hsp
  cases b <;>
    simp [TT.advanceExact, TT.handleInput, TT.processInput, TT.handleKeyDownSpace,
      TT.moveToNextWord, hw, hsp, hw', hsp']

/-- Unfolding one step of the committed-character total. -/
theorem sumLen_succ (ws : List String) (k : ℕ) (hk : k < ws.length) :
    TT.sumLen ws (k + 1) = TT.sumLen ws k + ((ws.getD k "").length + 1) := by
  induction ws generalizing k with
  | nil => simp at hk
  | cons w tail ih =>
    cases k with
    | zero => simp [TT.sumLen]
    | succ k =>
      have hk' : k < tail.length := by simpa using hk
      simp [TT.sumLen, ih k hk']
      omega

/-- The state after k exact-match advances from a freshly loaded word list is
the canonical state afterAdvances ws k, for k at most the word count. -/
theorem advanceN_canon (ws : List String)
    (hwords : ∀ w ∈ ws, jsTrim w = w ∧ jsEndsWith w ' ' = false)
    (k : ℕ) (hk : k ≤ ws.length) :
    TT.advanceN (TT.initialState ws) k = TT.afterAdvances ws k := by
  induction k with
  | zero => simp [TT.advanceN, TT.afterAdvances]
  | succ k ih =>
    have hklt : k < ws.length := Nat.lt_of_succ_le hk
    obtain ⟨hwt, hwe⟩ := hwords _ (getD_mem_of_lt ws k hklt)
    rw [TT.advanceN, ih (Nat.le_of_lt hklt)]
    obtain ⟨b, l, hpre⟩ : ∃ b l, TT.afterAdvances ws k =
        { words := ws, currentWordIndex := k, currentCharIndex := 0,
          correctChars := TT.sumLen ws k, totalChars := TT.sumLen ws k,
          isActive := b, inputValue := "", inputDisabled := false,
          lastProcessedInput := l, completedStats := none } := by
      by_cases hk0 : k = 0
      · subst hk0
        exact ⟨false, "", by simp [TT.afterAdvances, TT.initialState, TT.sumLen]⟩
      · exact ⟨true, ws.getD (k - 1) "",
          by simp [TT.afterAdvances, hk0, Nat.not_le.mpr hklt]⟩
    rw [hpre, advanceExact_canon ws k 0 (TT.sumLen ws k) (TT.sumLen ws k) b l hwt hwe]
    rw [show TT.sumLen ws k + ((ws.getD k "").length + 1) = TT.sumLen ws (k + 1) from
      (sumLen_succ ws k hklt).symm]
    simp [TT.afterAdvances, Nat.succ_ne_zero, Nat.add_sub_cancel]

/-- Claim C1: loading a non-empty word list and performing exactly N advances,
each with input exactly matching the current target word, leaves
currentWordIndex at N, and the machine is in the Completed state (isActive
false with onComplete fired carrying the final stats snapshot) if and only if
N equals the word count.  The word-list entries are words: trimming them is
the identity and none ends in a space. -/
theorem exact_advances_progress (ws : List String) (hne : ws ≠ [])
    (hwords : ∀ w ∈ ws, jsTrim w = w ∧ jsEndsWith w ' ' = false)
    (N : ℕ) (hN : N ≤ ws.length) :
    (TT.advanceN (TT.initialState ws) N).currentWordIndex = N ∧
    (((TT.advanceN (TT.initialState ws) N).isActive = false ∧
        (TT.advanceN (TT.initialState ws) N).completedStats =
          some (TT.statsOf (TT.advanceN (TT.initialState ws) N))) ↔
      N = ws.length) := by
  have hlen : ws.length ≠ 0 := fun h => hne (List.length_eq_zero.mp h)
  rw [advanceN_canon ws hwords N hN]
  by_cases h0 : N = 0
  · subst h0
    constructor
    · simp [TT.afterAdvances, TT.initialState]
    · simp [TT.afterAdvances, TT.initialState]
      omega
  · by_cases hNlen : N = ws.length
    · have hle : ws.length ≤ N := le_of_eq hNlen.symm
      simp [TT.afterAdvances, h0, hle, TT.complete, TT.statsOf, hNlen, hne]
    · have hlt : N < ws.length := lt_of_le_of_ne hN hNlen
      have hnle : ¬ ws.length ≤ N := Nat.not_le.mpr hlt
      simp [TT.afterAdvances, h0, hnle]
      exact hNlen

/-- Witness for claim C1 on the two-word list cat dog with N = 2 advances. -/
theorem exact_advances_progress_witness :
    (TT.advanceN (TT.initialState ["cat", "dog"]) 2).currentWordIndex = 2 ∧
    (((TT.advanceN (TT.initialState ["cat", "dog"]) 2).isActive = false ∧
        (TT.advanceN (TT.initialState ["cat", "dog"]) 2).completedStats =
          some (TT.statsOf (TT.advanceN (TT.initialState ["cat", "dog"]) 2))) ↔
      2 = (["cat", "dog"] : List String).length) :=
  exact_advances_progress ["cat", "dog"] (by decide) (by decide) 2 (by decide)

/-- Claim C5: each session operation (an input event or a space keydown, the
operations available between a setText or reset and the next reset) leaves
currentWordIndex at least its previous value, and while the session is active
it leaves correctChars and totalChars at least their previous values. -/
theorem session_monotone (s : TT.TypingTest) (op : TT.Op) :
    s.currentWordIndex ≤ (TT.applyOp s op).currentWordIndex ∧
    (s.isActive = true →
      s.correctChars ≤ (TT.applyOp s op).correctChars ∧
      s.totalChars ≤ (TT.applyOp s op).totalChars) := by
  have hmv : ∀ t : TT.TypingTest,
      t.currentWordIndex ≤ (TT.moveToNextWord t).currentWordIndex ∧
      t.correctChars ≤ (TT.moveToNextWord t).correctChars ∧
      t.totalChars ≤ (TT.moveToNextWord t).totalChars := by
    intro t
    simp only [TT.moveToNextWord, TT.complete, TT.statsOf]
    split_ifs <;> simp
  have hpi : ∀ (t : TT.TypingTest) (v : String),
      t.currentWordIndex ≤ (TT.processInput t v).currentWordIndex ∧
      t.correctChars ≤ (TT.processInput t v).correctChars ∧
      t.totalChars ≤ (TT.processInput t v).totalChars := by
    intro t v
    simp only [TT.processInput]
    split
    · exact hmv t
    · simp
  have hhi : ∀ (t : TT.TypingTest) (v : String),
      t.currentWordIndex ≤ (TT.handleInput t v).currentWordIndex ∧
      t.correctChars ≤ (TT.handleInput t v).correctChars ∧
      t.totalChars ≤ (TT.handleInput t v).totalChars := by
    intro t v
    simp only [TT.handleInput]
    cases hA : t.isActive
    · simp only [hA, Bool.false_eq_true, if_false]
      split
      · exact ⟨(hmv { t with isActive := true, inputValue := v }).1,
          (hmv { t with isActive := true, inputValue := v }).2.1,
          (hmv { t with isActive := true, inputValue := v }).2.2⟩
      · exact ⟨(hpi { t with isActive := true, inputValue := v } v).1,
          (hpi { t with isActive := true, inputValue := v } v).2.1,
          (hpi { t with isActive := true, inputValue := v } v).2.2⟩
    · simp only [hA, if_true]
      split
      · exact ⟨(hmv { t with isActive := true, inputValue := v }).1,
          (hmv { t with isActive := true, inputValue := v }).2.1,
          (hmv { t with isActive := true, inputValue := v }).2.2⟩
      · exact ⟨(hpi { t with isActive := true, inputValue := v } v).1,
          (hpi { t with isActive := true, inputValue := v } v).2.1,
          (hpi { t with isActive := true, inputValue := v } v).2.2⟩
  cases op with
  | input v => exact ⟨(hhi s v).1, fun _ => ⟨(hhi s v).2.1, (hhi s v).2.2⟩⟩
  | keydownSpace =>
    simp only [TT.applyOp, TT.handleKeyDownSpace]
    split
    · exact ⟨(hmv s).1, fun _ => ⟨(hmv s).2.1, (hmv s).2.2⟩⟩
    · exact ⟨le_refl _, fun _ => ⟨le_refl _, le_refl _⟩⟩

/-- Witness for claim C5 on a concrete active session and a space keydown. -/
theorem session_monotone_witness :
    c5state.currentWordIndex ≤
      (TT.applyOp c5state TT.Op.keydownSpace).currentWordIndex ∧
    c5state.correctChars ≤ (TT.applyOp c5state TT.Op.keydownSpace).correctChars ∧
    c5state.totalChars ≤ (TT.applyOp c5state TT.Op.keydownSpace).totalChars :=
  ⟨(session_monotone c5state TT.Op.keydownSpace).1,
   ((session_monotone c5state TT.Op.keydownSpace).2 rfl).1,
   ((session_monotone c5state TT.Op.keydownSpace).2 rfl).2⟩
